import Mathlib

/-!
# Verification development for the draconic sandboxed interpreter

Shallow embedding of the parts of `draconic` (a sandboxed Python-subset
interpreter) that the specification claims talk about:

* the error taxonomy (`draconic/exceptions.py`),
* the resource configuration (`draconic/helpers.py`, `DraconicConfig`),
* the approximate-length accounting and the safe container types
  (`draconic/types.py`),
* the checked operators (`draconic/helpers.py`, `OperatorMixin`),
* fragments of the interpreter (`draconic/interpreter.py`): the `eval`
  entry point, `_exec_try`, function definition and call, pattern
  matching (`_patma`, `_exec_match`) and comprehensions
  (`_do_comprehension`).

Machine integers of the source are arbitrary-precision Python ints and are
modelled as `Int`; sizes and counters as `Int`/`Nat`.  Fallible code
returns `Except ErrKind _`.
-/

namespace Draconic

/-- The exception taxonomy of `draconic/exceptions.py` (leaf classes only),
plus the host exceptions the interpreter lets through (`TypeError`,
`KeyError`, ...).  `type(exc).__name__` is `ErrKind.name`. -/
inductive ErrKind
  | numberTooHigh
  | iterableTooLong
  | tooManyStatements
  | tooMuchRecursion
  | featureNotAvailable
  | notDefined
  | draconicValueError
  | draconicSyntaxError
  | valueError
  | typeError
  | keyError
  | indexError
  | zeroDivisionError
  deriving DecidableEq, Repr

/-- `isinstance(exc, LimitException)` (`exceptions.py`: `NumberTooHigh`,
`IterableTooLong`, `TooManyStatements`, `TooMuchRecursion`). -/
def ErrKind.isLimit : ErrKind → Bool
  | .numberTooHigh | .iterableTooLong | .tooManyStatements | .tooMuchRecursion => true
  | _ => false

/-- `type(exc).__name__`, as used by `_except_handler_matches`. -/
def ErrKind.name : ErrKind → String
  | .numberTooHigh => "NumberTooHigh"
  | .iterableTooLong => "IterableTooLong"
  | .tooManyStatements => "TooManyStatements"
  | .tooMuchRecursion => "TooMuchRecursion"
  | .featureNotAvailable => "FeatureNotAvailable"
  | .notDefined => "NotDefined"
  | .draconicValueError => "DraconicValueError"
  | .draconicSyntaxError => "DraconicSyntaxError"
  | .valueError => "ValueError"
  | .typeError => "TypeError"
  | .keyError => "KeyError"
  | .indexError => "IndexError"
  | .zeroDivisionError => "ZeroDivisionError"

/-- An in-flight exception: either raised directly, or wrapped by
`NestedException` each time it crosses a user-function-call boundary
(`exceptions.py`).  `originalKind` is the `.original` attribute walk. -/
inductive Exc
  | plain (k : ErrKind)
  | nested (inner : Exc)
  deriving DecidableEq, Repr

/-- `WrappedException.original`: the root of the wrap chain. -/
def Exc.originalKind : Exc → ErrKind
  | .plain k => k
  | .nested e => e.originalKind

/-- `DraconicConfig` (`draconic/helpers.py` lines 17-45) with its default
ceilings.  `maxIntSize` and `maxRecursionDepth` are modelled from the spec
(section 4.1): the current `helpers.py` additionally accepts
`max_int_size=64` and `max_recursion_depth=50` (the tests construct
`DraconicConfig(max_int_size=32)` and `interpreter.py` imports `zip_star`
from `helpers`, so the version of `helpers.py` under `src/` is stale);
they default to 64 and 50 per the spec. -/
structure Cfg where
  maxConstLen : Int := 200000
  maxLoops : Nat := 10000
  maxStatements : Nat := 100000
  maxPowerBase : Int := 1000000
  maxPower : Int := 1000
  maxIntSize : Nat := 64
  maxRecursionDepth : Nat := 50
  deriving Repr

/-- `DraconicConfig()` with every argument defaulted. -/
def defaultConfig : Cfg := {}

/-- Runtime values.  Safe containers (`SafeList`, `SafeSet`, `SafeDict` of
`draconic/types.py`) carry their cached `__approx_len__` (an `Int`: the
cache is maintained by increments/decrements and is not clamped at zero).
Sets are modelled as duplicate-free lists, dicts as key-ordered
association lists. -/
inductive Value
  | vNone
  | vBool (b : Bool)
  | vInt (n : Int)
  | vStr (s : String)
  | vList (cache : Int) (data : List Value)
  | vTuple (data : List Value)
  | vSet (cache : Int) (data : List Value)
  | vDict (cache : Int) (data : List (Value × Value))
  deriving Repr

mutual

/-- Python `==` on the values above (used by `child in visited`, set
membership, dict key lookup, `list.remove`, pattern-value comparison).
Structural; the `__approx_len__` caches do not participate in `==`
(Python compares container contents only).  Modelling choices: numeric
cross-type equalities (`1 == True`) and order-insensitive set/dict
equality are not reproduced. -/
def vEq : Value → Value → Bool
  | .vNone, .vNone => true
  | .vBool a, .vBool b => a == b
  | .vInt a, .vInt b => a == b
  | .vStr a, .vStr b => a == b
  | .vList _ d₁, .vList _ d₂ => vEqList d₁ d₂
  | .vTuple d₁, .vTuple d₂ => vEqList d₁ d₂
  | .vSet _ d₁, .vSet _ d₂ => vEqList d₁ d₂
  | .vDict _ d₁, .vDict _ d₂ => vEqPairs d₁ d₂
  | _, _ => false

/-- `vEq` on element lists. -/
def vEqList : List Value → List Value → Bool
  | [], [] => true
  | a :: as, b :: bs => vEq a b && vEqList as bs
  | _, _ => false

/-- `vEq` on dict item lists. -/
def vEqPairs : List (Value × Value) → List (Value × Value) → Bool
  | [], [] => true
  | (k, v) :: as, (k', v') :: bs => vEq k k' && vEq v v' && vEqPairs as bs
  | _, _ => false

end

/-- `operator.length_hint` for the values above (0 for non-sized objects). -/
def lengthHint : Value → Int
  | .vList _ d => d.length
  | .vTuple d => d.length
  | .vSet _ d => d.length
  | .vDict _ d => d.length
  | .vStr s => s.length
  | _ => 0

mutual

/-- `approx_len_of(obj, visited)` (`draconic/types.py` lines 15-47) on a
single object: strings return their length, objects carrying an
`__approx_len__` cache (the safe containers) return the cache, everything
else starts from `length_hint` and folds over its children, skipping
children `==`-equal to an already-visited object and appending each child
to `visited` after recursing.  Plain tuples are the only compound values
reaching the generic path here (plain lists/dicts/sets handed to scripts
are rewrapped by `_eval`).  The `visited` list is threaded explicitly to
mirror the in-place mutation of the Python list. -/
def approxVisited : Value → List Value → Int × List Value
  | .vStr s, vis => ((s.length : Int), vis)
  | .vList c _, vis => (c, vis)
  | .vSet c _, vis => (c, vis)
  | .vDict c _, vis => (c, vis)
  | .vTuple d, vis => approxChildren d (d.length : Int) vis
  | .vNone, vis => (0, vis)
  | .vBool _, vis => (0, vis)
  | .vInt _, vis => (0, vis)

/-- The `for child in obj_iter` loop of `approx_len_of`:
`if child in visited: continue`, recurse, `visited.append(child)`. -/
def approxChildren : List Value → Int → List Value → Int × List Value
  | [], acc, vis => (acc, vis)
  | c :: rest, acc, vis =>
    if vis.any (vEq c) then approxChildren rest acc vis
    else
      let r := approxVisited c vis
      approxChildren rest (acc + r.1) (r.2 ++ [c])

end

/-- `approx_len_of(obj)` with a fresh `visited` list (initialised to
`[obj]`; no child of a finite tree value equals the whole value, so the
initial element is dropped here). -/
def approxLenOf (v : Value) : Int := (approxVisited v []).1

/-- The fresh `approx_len_of(self)` computed by a safe container's
`__init__` before the `__approx_len__` attribute exists: `length_hint`
plus the visited-guarded fold over the children. -/
def containerFreshLen (children : List Value) : Int :=
  (approxChildren children (children.length : Int) []).1

/-- `dict` children as iterated by `approx_len_of`: `obj.items()`, each
item a 2-tuple. -/
def dictItems (d : List (Value × Value)) : List Value :=
  d.map (fun kv => .vTuple [kv.1, kv.2])

/-- Python `in` over a member list, using `==` (element-first operand
order, as `list.remove`/`in` compare). -/
def vMem (x : Value) (l : List Value) : Bool := l.any (fun y => vEq y x)

/-- `iter(obj)` as a list of elements; `none` when the object is not
iterable (`TypeError`).  A dict iterates its keys, a string its
characters. -/
def iterElems : Value → Option (List Value)
  | .vList _ d => some d
  | .vTuple d => some d
  | .vSet _ d => some d
  | .vDict _ d => some (d.map (fun kv => kv.1))
  | .vStr s => some (s.toList.map (fun ch => .vStr (String.mk [ch])))
  | _ => none

-- ===== safe containers (`draconic/types.py`) =====

/-- `SafeList` (`types.py` lines 53-93): a `UserList` carrying the
`__approx_len__` cache. -/
structure SafeList where
  data : List Value
  approxLen : Int
  deriving Repr

/-- A `SafeList` as a `Value`. -/
def SafeList.toValue (l : SafeList) : Value := .vList l.approxLen l.data

/-- `SafeList(iterable)`: `__init__` computes `approx_len_of(self)`
fresh (no cache exists yet). -/
def safeListNew (d : List Value) : SafeList := ⟨d, containerFreshLen d⟩

/-- `SafeList.append` (`types.py` lines 59-63): the bound check precedes
the mutation; the cache grows by exactly 1 whatever the appended object
is. -/
def SafeList.append (cfg : Cfg) (l : SafeList) (obj : Value) : Except ErrKind SafeList :=
  if l.approxLen + 1 > cfg.maxConstLen then .error .iterableTooLong
  else .ok ⟨l.data ++ [obj], l.approxLen + 1⟩

/-- `SafeList.extend` (`types.py` lines 65-70). -/
def SafeList.extend (cfg : Cfg) (l : SafeList) (iterable : Value) : Except ErrKind SafeList :=
  let otherLen := approxLenOf iterable
  if l.approxLen + otherLen > cfg.maxConstLen then .error .iterableTooLong
  else
    match iterElems iterable with
    | none => .error .typeError
    | some es => .ok ⟨l.data ++ es, l.approxLen + otherLen⟩

/-- `SafeList.pop` (`types.py` lines 72-75), default index `-1`. -/
def SafeList.pop (l : SafeList) : Except ErrKind (Value × SafeList) :=
  match l.data.getLast? with
  | none => .error .indexError
  | some last => .ok (last, ⟨l.data.dropLast, l.approxLen - 1⟩)

/-- The first-occurrence removal performed by `list.remove`. -/
def removeFirst (item : Value) : List Value → List Value
  | [] => []
  | x :: xs => if vEq x item then xs else x :: removeFirst item xs

/-- `SafeList.remove` (`types.py` lines 77-79). -/
def SafeList.remove (l : SafeList) (item : Value) : Except ErrKind SafeList :=
  if vMem item l.data then .ok ⟨removeFirst item l.data, l.approxLen - 1⟩
  else .error .valueError

/-- `SafeList.clear` (`types.py` lines 81-83). -/
def SafeList.clear (_l : SafeList) : SafeList := ⟨[], 0⟩

/-- `self.data * n` of `SafeList.__mul__`. -/
def listMul (d : List Value) (n : Int) : List Value :=
  (List.replicate n.toNat d).flatten

/-- `SafeList.__mul__` (`types.py` lines 85-91): sets the new instance's
data and cache directly, `new.__approx_len__ = self.__approx_len__ * n`
(JIRA-54), without re-walking. -/
def SafeList.mul (l : SafeList) (n : Int) : SafeList :=
  ⟨listMul l.data n, l.approxLen * n⟩

/-- `SafeSet` (`types.py` lines 96-171), members as a duplicate-free
list. -/
structure SafeSet where
  data : List Value
  approxLen : Int
  deriving Repr

/-- A `SafeSet` as a `Value`. -/
def SafeSet.toValue (s : SafeSet) : Value := .vSet s.approxLen s.data

/-- `set` insertion (no effect when the member is present). -/
def setInsert (l : List Value) (x : Value) : List Value :=
  if vMem x l then l else l ++ [x]

/-- Deduplicating fold used when a set is built from an iterable. -/
def setFromList (l : List Value) : List Value := l.foldl setInsert []

/-- `SafeSet(iterable)`: deduplicate, then `__init__` computes
`approx_len_of(self)` fresh. -/
def safeSetNew (d : List Value) : SafeSet :=
  let ud := setFromList d
  ⟨ud, containerFreshLen ud⟩

/-- `SafeSet.add` (`types.py` lines 150-154): the cache grows by 1 even
when the element was already present. -/
def SafeSet.add (cfg : Cfg) (s : SafeSet) (element : Value) : Except ErrKind SafeSet :=
  if s.approxLen + 1 > cfg.maxConstLen then .error .iterableTooLong
  else .ok ⟨setInsert s.data element, s.approxLen + 1⟩

/-- `iter(other)` for each argument of a variadic set method; `none`
when any is not iterable. -/
def iterElemsAll : List Value → Option (List (List Value))
  | [] => some []
  | v :: rest =>
    match iterElems v, iterElemsAll rest with
    | some es, some ess => some (es :: ess)
    | _, _ => none

/-- `SafeSet.update` (`types.py` lines 128-133): `*s` are the argument
iterables. -/
def SafeSet.update (cfg : Cfg) (s : SafeSet) (others : List Value) : Except ErrKind SafeSet :=
  let otherLens := (others.map approxLenOf).sum
  if s.approxLen + otherLens > cfg.maxConstLen then .error .iterableTooLong
  else
    match iterElemsAll others with
    | none => .error .typeError
    | some ess => .ok ⟨ess.foldl (fun acc es => es.foldl setInsert acc) s.data, s.approxLen + otherLens⟩

/-- `SafeSet.union` (`types.py` lines 102-105): checks the cached lengths,
then builds `SafeSet(super().union(*s))` — whose `__init__` recomputes the
approximate length fresh from the member set. -/
def SafeSet.union (cfg : Cfg) (s : SafeSet) (others : List Value) : Except ErrKind SafeSet :=
  if s.approxLen + (others.map approxLenOf).sum > cfg.maxConstLen then .error .iterableTooLong
  else
    match iterElemsAll others with
    | none => .error .typeError
    | some ess =>
      let ud := ess.foldl (fun acc es => es.foldl setInsert acc) s.data
      .ok ⟨ud, containerFreshLen ud⟩

/-- `SafeDict` (`types.py` lines 174-224), an insertion-ordered
association list with unique keys. -/
structure SafeDict where
  data : List (Value × Value)
  approxLen : Int
  deriving Repr

/-- A `SafeDict` as a `Value`. -/
def SafeDict.toValue (d : SafeDict) : Value := .vDict d.approxLen d.data

/-- Key lookup by `==`. -/
def dLookup (d : List (Value × Value)) (k : Value) : Option Value :=
  (d.find? (fun kv => vEq kv.1 k)).map (fun kv => kv.2)

/-- `dict` store: overwrite in place when the key exists, else append. -/
def dSet (d : List (Value × Value)) (k v : Value) : List (Value × Value) :=
  match d with
  | [] => [(k, v)]
  | kv :: rest => if vEq kv.1 k then (k, v) :: rest else kv :: dSet rest k v

/-- `dict` deletion by key. -/
def dDel (d : List (Value × Value)) (k : Value) : List (Value × Value) :=
  match d with
  | [] => []
  | kv :: rest => if vEq kv.1 k then rest else kv :: dDel rest k

/-- `SafeDict(pairs)`: deduplicate keys (last value wins), then
`__init__` computes `approx_len_of(self)` fresh over the items. -/
def safeDictNew (d : List (Value × Value)) : SafeDict :=
  let ud := d.foldl (fun acc kv => dSet acc kv.1 kv.2) []
  ⟨ud, (approxChildren (dictItems ud) (ud.length : Int) []).1⟩

/-- `SafeDict.__setitem__` (`types.py` lines 191-196): the cache grows by
`approx_len_of(value)` only — nothing for the new entry itself or its
key. -/
def SafeDict.setitem (cfg : Cfg) (d : SafeDict) (k v : Value) : Except ErrKind SafeDict :=
  let otherLen := approxLenOf v
  if d.approxLen + otherLen > cfg.maxConstLen then .error .iterableTooLong
  else .ok ⟨dSet d.data k v, d.approxLen + otherLen⟩

/-- `SafeDict.update` (`types.py` lines 180-189) with a single positional
mapping argument and no keyword arguments (`approx_len_of({}) = 0`). -/
def SafeDict.update (cfg : Cfg) (d : SafeDict) (other : Value) : Except ErrKind SafeDict :=
  let otherLens := approxLenOf other
  if d.approxLen + otherLens > cfg.maxConstLen then .error .iterableTooLong
  else
    match other with
    | .vDict _ od => .ok ⟨od.foldl (fun acc kv => dSet acc kv.1 kv.2) d.data, d.approxLen + otherLens⟩
    | _ => .error .typeError

/-- `SafeDict.pop` (`types.py` lines 198-204) without a default. -/
def SafeDict.popKey (d : SafeDict) (k : Value) : Except ErrKind (Value × SafeDict) :=
  match dLookup d.data k with
  | none => .error .keyError
  | some v => .ok (v, ⟨dDel d.data k, d.approxLen - 1⟩)

/-- `SafeDict.__delitem__` (`types.py` lines 206-208). -/
def SafeDict.delitem (d : SafeDict) (k : Value) : Except ErrKind SafeDict :=
  match dLookup d.data k with
  | none => .error .keyError
  | some _ => .ok ⟨dDel d.data k, d.approxLen - 1⟩

-- ===== operators (`draconic/helpers.py`, `OperatorMixin`) =====

/-- `s * n` for a string and a non-negative count. -/
def strRepeat (s : String) (n : Int) : String :=
  String.join (List.replicate n.toNat s)

/-- The unchecked Python `a * b` on the value kinds scripts can reach
(ints, strings, safe lists).  `SafeList.__mul__` keeps the cache product;
`int * SafeList` dispatches to `UserList.__rmul__`, which rebuilds through
the constructor and therefore recomputes the cache fresh. -/
def pyMult : Value → Value → Except ErrKind Value
  | .vInt a, .vInt b => .ok (.vInt (a * b))
  | .vInt a, .vStr s => .ok (.vStr (strRepeat s a))
  | .vStr s, .vInt b => .ok (.vStr (strRepeat s b))
  | .vList c d, .vInt n => .ok (SafeList.mul ⟨d, c⟩ n).toValue
  | .vInt n, .vList _ d =>
    let dm := listMul d n
    .ok (.vList (containerFreshLen dm) dm)
  | _, _ => .error .typeError

/-- `isinstance(x, int) and x * approx_len_of(other) > config.max_const_len`
(one guard of `_safe_mult`). -/
def mulGuard (cfg : Cfg) (x other : Value) : Bool :=
  match x with
  | .vInt n => decide (n * approxLenOf other > cfg.maxConstLen)
  | _ => false

/-- `OperatorMixin._safe_mult` (`helpers.py` lines 120-128): both guards
use a strict `>` against `max_const_len`, then fall through to `a * b`. -/
def safeMult (cfg : Cfg) (a b : Value) : Except ErrKind Value :=
  if mulGuard cfg b a then .error .iterableTooLong
  else if mulGuard cfg a b then .error .iterableTooLong
  else pyMult a b

/-- The unchecked Python `a + b` on the reachable kinds.
`UserList.__add__` rebuilds through the constructor (fresh cache). -/
def pyAdd : Value → Value → Except ErrKind Value
  | .vInt a, .vInt b => .ok (.vInt (a + b))
  | .vStr a, .vStr b => .ok (.vStr (a ++ b))
  | .vList _ d₁, .vList _ d₂ =>
    let d := d₁ ++ d₂
    .ok (.vList (containerFreshLen d) d)
  | .vTuple a, .vTuple b => .ok (.vTuple (a ++ b))
  | _, _ => .error .typeError

/-- `OperatorMixin._safe_add` (`helpers.py` lines 130-134). -/
def safeAdd (cfg : Cfg) (a b : Value) : Except ErrKind Value :=
  if approxLenOf a + approxLenOf b > cfg.maxConstLen then .error .iterableTooLong
  else pyAdd a b

-- ===== integer magnitude limits =====

/-- Modelled from the spec (§4.1): `min_int = -2^(n-1)` for
`n = max_int_size`.  The integer-limit machinery (`max_int_size`,
`_safe_sub`, `_safe_lshift`, the operand/result checks) is missing from
the stale `helpers.py` under `src/`; only its tests
(`tests/test_limits.py::test_int_limits*`) and the operator table quoted
in `tests/test_language.py` remain. -/
def Cfg.minInt (cfg : Cfg) : Int := -(2 ^ (cfg.maxIntSize - 1))

/-- Modelled from the spec (§4.1): `max_int = 2^(n-1) - 1`. -/
def Cfg.maxInt (cfg : Cfg) : Int := 2 ^ (cfg.maxIntSize - 1) - 1

/-- Modelled from the spec (§4.1, §8): an integer operand or result
outside `[min_int, max_int]` raises `NumberTooHigh`. -/
def intLimitCheck (cfg : Cfg) (v : Int) : Except ErrKind Unit :=
  if v < cfg.minInt ∨ v > cfg.maxInt then .error .numberTooHigh else .ok ()

/-- Modelled from the spec (§4.4, §8): `-` checks both operands and the
result magnitude (`_safe_sub`, missing from the stale `helpers.py`). -/
def safeSub (cfg : Cfg) (a b : Int) : Except ErrKind Int :=
  match intLimitCheck cfg a with
  | .error e => .error e
  | .ok _ =>
    match intLimitCheck cfg b with
    | .error e => .error e
    | .ok _ =>
      match intLimitCheck cfg (a - b) with
      | .error e => .error e
      | .ok _ => .ok (a - b)

/-- Modelled from the spec (§4.4): `<<` checks both operands, refuses
shift counts `≥ max_int_size − 1`, and checks the result magnitude
(`_safe_lshift`, missing from the stale `helpers.py`).  A negative shift
count is a Python `ValueError`. -/
def safeLshift (cfg : Cfg) (a b : Int) : Except ErrKind Int :=
  match intLimitCheck cfg a with
  | .error e => .error e
  | .ok _ =>
    match intLimitCheck cfg b with
    | .error e => .error e
    | .ok _ =>
      if b < 0 then .error .valueError
      else if b ≥ (cfg.maxIntSize : Int) - 1 then .error .numberTooHigh
      else
        match intLimitCheck cfg (a * 2 ^ b.toNat) with
        | .error e => .error e
        | .ok _ => .ok (a * 2 ^ b.toNat)

-- ===== the spec's "semantic size" =====

mutual

/-- Modelled from the spec (§3, glossary): the "semantic size" that
`approx_len` is claimed to overestimate — "the sum of their element
`approx_len`s (strings count as their character length, primitives
as 1)"; for mappings both key and value count. -/
def semanticSize : Value → Int
  | .vNone => 1
  | .vBool _ => 1
  | .vInt _ => 1
  | .vStr s => s.length
  | .vList _ d => semanticSizeList d
  | .vTuple d => semanticSizeList d
  | .vSet _ d => semanticSizeList d
  | .vDict _ d => semanticSizePairs d

/-- `semanticSize` summed over elements. -/
def semanticSizeList : List Value → Int
  | [] => 0
  | v :: rest => semanticSize v + semanticSizeList rest

/-- `semanticSize` summed over mapping items. -/
def semanticSizePairs : List (Value × Value) → Int
  | [] => 0
  | (k, v) :: rest => semanticSize k + semanticSize v + semanticSizePairs rest

end

/-- Primitive (non-container, non-string) values: size 1 in the spec's
accounting, `length_hint` 0 and not iterable in the code's. -/
def isPrimitive : Value → Bool
  | .vNone | .vBool _ | .vInt _ => true
  | _ => false

/-- The script-visible mutations of a safe sequence. -/
inductive LOp
  | append (v : Value)
  | extend (iterable : Value)
  | pop
  | remove (v : Value)
  | clear
  | mul (n : Int)

/-- Dispatch one mutation to the `SafeList` methods. -/
def applyLOp (cfg : Cfg) (l : SafeList) : LOp → Except ErrKind SafeList
  | .append v => SafeList.append cfg l v
  | .extend it => SafeList.extend cfg l it
  | .pop => (SafeList.pop l).map (fun r => r.2)
  | .remove v => SafeList.remove l v
  | .clear => .ok (SafeList.clear l)
  | .mul n => .ok (SafeList.mul l n)

/-- A sequence of mutations, stopping at the first error (the raised
error leaves the container untouched: every checked method raises before
mutating). -/
def applyLOps (cfg : Cfg) (l : SafeList) : List LOp → Except ErrKind SafeList
  | [] => .ok l
  | op :: rest => do
    let l' ← applyLOp cfg l op
    applyLOps cfg l' rest

-- ===== interpreter fragments (`draconic/interpreter.py`) =====

/-- The statement-counting prologue of `DraconicInterpreter._eval`
(`interpreter.py` lines 470-473): `self._num_stmts += 1`, then raise
`TooManyStatements` when the counter exceeds `max_statements`. -/
def evalStep (cfg : Cfg) (c : Nat) : Except ErrKind Nat :=
  if c + 1 > cfg.maxStatements then .error .tooManyStatements else .ok (c + 1)

/-- The control-flow sentinels `_Return`, `_Break`, `_Continue`
(`interpreter.py` lines 254-273). -/
inductive Sentinel
  | ret (v : Option Value)
  | brk
  | cont

/-- The outcome of `self._exec(body)`: fell through returning `None`,
surfaced a sentinel, or raised. -/
inductive ExecOut
  | done
  | sent (s : Sentinel)
  | exc (e : Exc)

/-- An `except` clause's type expression: bare, a string literal / tuple
of string literals, or anything else (refused). -/
inductive HandlerClause
  | bare
  | strs (names : List String)
  | invalid

/-- One `ast.ExceptHandler`: its type clause, whether it has an
`as` name (refused), and the outcome of executing its body. -/
structure Handler where
  clause : HandlerClause
  hasAsName : Bool
  body : ExecOut

/-- `_except_handler_matches` (`interpreter.py` lines 1069-1084):
`none` models the `FeatureNotAvailable` raised for a non-string clause. -/
def handlerMatches (cl : HandlerClause) (k : ErrKind) : Option Bool :=
  match cl with
  | .bare => some true
  | .strs ns => some (ns.contains k.name)
  | .invalid => none

/-- The `for handler in node.handlers` loop of `_exec_try` with its
`for/else` re-raise: the first matching handler's body runs
(`_except_handler`, which first refuses an `as` name); a sentinel from it
is returned, otherwise the loop breaks; no match re-raises the original
exception. -/
def runHandlers (k : ErrKind) (orig : Exc) : List Handler → ExecOut
  | [] => .exc orig
  | h :: rest =>
    match handlerMatches h.clause k with
    | none => .exc (.plain .featureNotAvailable)
    | some false => runHandlers k orig rest
    | some true =>
      if h.hasAsName then .exc (.plain .featureNotAvailable)
      else h.body

/-- `DraconicInterpreter._exec_try` (`interpreter.py` lines 1040-1067) as
a function of the outcomes of its four sub-executions: the body, the
handler bodies, the `else` body and the `finally` body.  A raised
`WrappedException` is unwrapped to its `original` for the limit check and
handler matching; limit errors re-raise immediately.  The `finally`
clause always runs: a sentinel from it is returned (overriding — and,
per Python semantics of `return` inside `finally`, discarding — any
pending outcome or in-flight exception), an exception from it
propagates, and otherwise the pending outcome stands. -/
def execTry (body : ExecOut) (handlers : List Handler) (orelse : ExecOut)
    (finalOut : ExecOut) : ExecOut :=
  let pending : ExecOut :=
    match body with
    | .sent s => .sent s
    | .done => orelse
    | .exc e =>
      if e.originalKind.isLimit then .exc e
      else runHandlers e.originalKind e handlers
  match finalOut with
  | .sent s => .sent s
  | .exc e => .exc e
  | .done => pending

/-- What `SimpleInterpreter.eval` hands back to `DraconicInterpreter.eval`
(`interpreter.py` lines 77-90): `none` when the parsed body is empty
(evaluate to `None`), otherwise the result of `self._eval` on the first
expression — a plain value or a control-flow sentinel. -/
inductive EvalOut
  | val (v : Option Value)
  | sent (s : Sentinel)

/-- `DraconicInterpreter.eval` (`interpreter.py` lines 423-429) after the
parse: a `_Return` sentinel yields its value, `_Break`/`_Continue` raise
`DraconicSyntaxError` ("Loop control outside loop"), anything else is
returned as is. -/
def evalTop : Option EvalOut → Except ErrKind (Option Value)
  | none => .ok none
  | some (.val v) => .ok v
  | some (.sent (.ret v)) => .ok v
  | some (.sent .brk) => .error .draconicSyntaxError
  | some (.sent .cont) => .error .draconicSyntaxError

-- ===== closures (`_eval_functiondef` / `_function_call_context`) =====

/-- A user function body, restricted here to a single `return` statement
(enough to observe the environment semantics): return a name or a
constant. -/
inductive FBody
  | retName (x : String)
  | retConst (n : Int)

/-- Values of the closure model: integers and function objects.  A
`_Function` stores the *reference* to the names dict current at
definition time (`names_at_def = self._names`,
`interpreter.py` lines 279-283 and 925-928), modelled as an index into
the store. -/
inductive CVal
  | cint (n : Int)
  | cfunc (body : FBody) (outerScopeNames : Nat)

/-- The heap of name dicts.  `cur` is the reference held by
`self._names`. -/
structure CState where
  store : List (List (String × CVal))
  cur : Nat

/-- Dereference a names-dict reference. -/
def storeGet (st : CState) (r : Nat) : List (String × CVal) :=
  (st.store.get? r).getD []

/-- Overwrite the dict behind a reference (in-place mutation of the
Python dict object). -/
def storeSet (st : CState) (r : Nat) (d : List (String × CVal)) : CState :=
  { st with store := st.store.set r d }

/-- Assoc lookup on a names dict. -/
def cLookup (d : List (String × CVal)) (x : String) : Option CVal :=
  (d.find? (fun kv => kv.1 == x)).map (fun kv => kv.2)

/-- Assoc store on a names dict. -/
def cSet (d : List (String × CVal)) (x : String) (v : CVal) : List (String × CVal) :=
  match d with
  | [] => [(x, v)]
  | kv :: rest => if kv.1 == x then (x, v) :: rest else kv :: cSet rest x v

/-- `_eval_functiondef` (`interpreter.py` lines 925-928):
`self._names[node.name] = _Function(self, node, self._names, self._expr)`
— the function object captures the current names dict *by reference*
(the builtin-shadowing check is elided). -/
def evalFunctionDef (st : CState) (fname : String) (body : FBody) : CState :=
  storeSet st st.cur (cSet (storeGet st st.cur) fname (.cfunc body st.cur))

/-- `_assign_name` (`interpreter.py` lines 679-682):
`self._names[name.id] = value`, an in-place update of the dict
`self._names` currently refers to. -/
def assignName (st : CState) (x : String) (v : CVal) : CState :=
  storeSet st st.cur (cSet (storeGet st st.cur) x v)

/-- Name lookup through the current names dict (builtins elided);
missing names raise `NotDefined`. -/
def lookupName (st : CState) (x : String) : Except ErrKind CVal :=
  match cLookup (storeGet st st.cur) x with
  | some v => .ok v
  | none => .error .notDefined

/-- Execute a (single-`return`) function body under a state. -/
def execFBody (st : CState) : FBody → Except ErrKind CVal
  | .retName x => lookupName st x
  | .retConst n => .ok (.cint n)

/-- `_function_call_context` + `_exec_function` (`interpreter.py`
lines 944-966, 1026-1032): save the current names reference, swap in
`self._names = functiondef._outer_scope_names.copy()` — a *copy, made at
call time*, of the dict the function captured — execute the body, and in
the `finally` restore the saved reference.  (Depth accounting and
argument binding are elided; the copied frame dict stays in the store,
unreachable.) -/
def callFunction (st : CState) (body : FBody) (closureRef : Nat) :
    Except ErrKind CVal × CState :=
  let newRef := st.store.length
  let st1 : CState := { store := st.store ++ [storeGet st closureRef], cur := newRef }
  let res := execFBody st1 body
  (res, { st1 with cur := st.cur })

/-- Call a function bound to a name in the current scope. -/
def callNamed (st : CState) (f : String) : Except ErrKind CVal × CState :=
  match cLookup (storeGet st st.cur) f with
  | some (.cfunc body ref) => callFunction st body ref
  | some (.cint _) => (.error .typeError, st)
  | none => (.error .notDefined, st)

-- ===== name bindings =====

/-- Script-level variable names. -/
abbrev VName := String

/-- A bindings dict (`self._names`, or the bindings returned by
`_patma`), insertion-ordered with unique keys. -/
abbrev Bindings := List (VName × Value)

/-- Assoc lookup. -/
def bLookup (bs : Bindings) (x : VName) : Option Value :=
  (bs.find? (fun kv => kv.1 == x)).map (fun kv => kv.2)

/-- Assoc store (overwrite in place, else append) — `d[x] = v`. -/
def bSet (bs : Bindings) (x : VName) (v : Value) : Bindings :=
  match bs with
  | [] => [(x, v)]
  | kv :: rest => if kv.1 == x then (x, v) :: rest else kv :: bSet rest x v

/-- `base.update(new)`: fold the new bindings into the base dict. -/
def bUpdate (base new : Bindings) : Bindings :=
  new.foldl (fun acc kv => bSet acc kv.1 kv.2) base

/-- `bound_names.intersection(match)` being non-empty: some key of the
new bindings is already bound. -/
def namesIntersect (bound : List VName) (b : Bindings) : Bool :=
  b.any (fun kv => bound.contains kv.1)

/-- Python truthiness (`bool(v)`). -/
def truthy : Value → Bool
  | .vNone => false
  | .vBool b => b
  | .vInt n => n != 0
  | .vStr s => s ≠ ""
  | .vList _ d => !d.isEmpty
  | .vTuple d => !d.isEmpty
  | .vSet _ d => !d.isEmpty
  | .vDict _ d => !d.isEmpty

-- ===== pattern matching (`_patma`, `_exec_match`) =====

/-- `match` patterns (`ast.Match*`, handled by the `patma_nodes` table,
`interpreter.py` lines 400-411).  The expressions inside `MatchValue` and
the mapping keys are modelled as already-parsed constants, but their
evaluation still goes through the counting `_eval` (`evalStep`).
`MatchClass` is not in the table (it raises `FeatureNotAvailable`) and is
omitted. -/
inductive Pattern
  | value (v : Value)
  | singleton (v : Value)
  | sequence (ps : List Pattern)
  | mapping (kvs : List (Value × Pattern)) (rest : Option VName)
  | star (name : Option VName)
  | as_ (inner : Option Pattern) (name : Option VName)
  | orP (ps : List Pattern)

/-- `isinstance(pattern, ast.MatchStar)`. -/
def isStarPat : Pattern → Bool
  | .star _ => true
  | _ => false

/-- `match_star_idxs` of `_patma_match_sequence` (`interpreter.py`
line 821). -/
def starIdxs (ps : List Pattern) : List Nat :=
  ps.enum.filterMap (fun ip => if isStarPat ip.2 then some ip.1 else none)

/-- The values aligned with the patterns by
`zip_star(node.patterns, subject, star_index=k)`: the starred position
receives the middle slice (as a sequence of the subject's kind — slicing
a `SafeList` rebuilds through the constructor, so `mkSeq` recomputes the
cache fresh), the other positions the corresponding items.  `zip_star`
itself is missing from the stale `helpers.py`; its behaviour here is
modelled from `tests/test_helpers.py` and the spec (§4.6 "binds the
collected slice"). -/
def zipStarVals (n : Nat) (d : List Value) (k : Nat) (mkSeq : List Value → Value) :
    List Value :=
  let sliceLen := d.length - (n - 1)
  d.take k ++ [mkSeq ((d.drop k).take sliceLen)] ++ (d.drop k).drop sliceLen

/-- Slicing result for each sequence kind. -/
def mkSeqLike : Value → List Value → Value
  | .vList _ _, l => .vList (containerFreshLen l) l
  | _, l => .vTuple l

mutual

/-- `DraconicInterpreter._patma` (`interpreter.py` lines 793-804) and its
per-kind handlers: dispatch on the pattern kind, `self._num_stmts += 1`
*without* comparing against `max_statements`, then run the handler.
Returns the bindings dict on a match, `none` otherwise; the statement
counter is threaded through. -/
def patma (cfg : Cfg) (p : Pattern) (subject : Value) (c : Nat) :
    Except ErrKind (Option Bindings × Nat) :=
  let c := c + 1
  match p with
  | .value v =>
    -- `_patma_match_value`: `subject == self._eval(node.value)`; the
    -- `_eval` of the value expression counts and checks.
    match evalStep cfg c with
    | .error e => .error e
    | .ok c₁ => .ok (if vEq subject v then some [] else none, c₁)
  | .singleton v =>
    -- `_patma_match_singleton`: `subject is node.value`.
    .ok (if vEq subject v then some [] else none, c)
  | .sequence ps =>
    -- `_patma_match_sequence`.
    match subject with
    | .vList cache d => patmaSequence cfg ps (.vList cache d) d c
    | .vTuple d => patmaSequence cfg ps (.vTuple d) d c
    | _ => .ok (none, c)
  | .mapping kvs rest =>
    -- `_patma_match_mapping`.
    match subject with
    | .vDict cache d => patmaMapItems cfg kvs (.vDict cache d) d [] [] [] rest c
    | _ => .ok (none, c)
  | .star name =>
    -- `_patma_match_star`.
    match name with
    | none => .ok (some [], c)
    | some n => .ok (some [(n, subject)], c)
  | .as_ inner name =>
    -- `_patma_match_as`.
    match name with
    | none => .ok (some [], c)
    | some n =>
      match inner with
      | none => .ok (some [(n, subject)], c)
      | some ip =>
        match patma cfg ip subject c with
        | .error e => .error e
        | .ok (none, c₁) => .ok (none, c₁)
        | .ok (some m, c₁) => .ok (some (bUpdate m [(n, subject)]), c₁)
  | .orP ps =>
    -- `_patma_match_or`: first matching alternative wins; binding
    -- coherence across alternatives is not enforced.
    patmaOrList cfg ps subject c

/-- The star counting and length checks of `_patma_match_sequence`
(`interpreter.py` lines 817-834), then the pattern/value iteration. -/
def patmaSequence (cfg : Cfg) (ps : List Pattern) (subject : Value)
    (d : List Value) (c : Nat) : Except ErrKind (Option Bindings × Nat) :=
  match starIdxs ps with
  | [] =>
    if ps.length ≠ d.length then .ok (none, c)
    else patmaPairs cfg ps d [] [] c
  | [k] =>
    if ¬ (ps.length ≤ d.length + 1) then .ok (none, c)
    else patmaPairs cfg ps (zipStarVals ps.length d k (mkSeqLike subject)) [] [] c
  | _ => .error .draconicValueError

/-- The `for pattern, item in pattern_iterator` loop of
`_patma_match_sequence` (`interpreter.py` lines 837-856): recursive
match, duplicate-binding check (`DraconicValueError`), merge. -/
def patmaPairs (cfg : Cfg) (ps : List Pattern) (vals : List Value)
    (bindings : Bindings) (bound : List VName) (c : Nat) :
    Except ErrKind (Option Bindings × Nat) :=
  match ps, vals with
  | [], _ => .ok (some bindings, c)
  | p :: prest, v :: vrest =>
    match patma cfg p v c with
    | .error e => .error e
    | .ok (none, c₁) => .ok (none, c₁)
    | .ok (some m, c₁) =>
      if namesIntersect bound m then .error .draconicValueError
      else patmaPairs cfg prest vrest (bUpdate bindings m) (bound ++ m.map (fun kv => kv.1)) c₁
  | _ :: _, [] => .ok (some bindings, c)

/-- The `for key, pattern in zip(node.keys, node.patterns)` loop of
`_patma_match_mapping` (`interpreter.py` lines 858-895), then the
`**rest` collection: each key expression is evaluated through the
counting `_eval`, a missing key is "no match", sub-patterns match the
values, duplicate bindings raise, and `rest` (refused when already
bound) collects the remaining entries into a plain dict. -/
def patmaMapItems (cfg : Cfg) (kvs : List (Value × Pattern)) (subject : Value)
    (sd : List (Value × Value)) (bindings : Bindings) (bound : List VName)
    (boundKeys : List Value) (rest : Option VName) (c : Nat) :
    Except ErrKind (Option Bindings × Nat) :=
  match kvs with
  | [] =>
    match rest with
    | none => .ok (some bindings, c)
    | some r =>
      if bound.contains r then .error .draconicValueError
      else
        let remaining := sd.filter (fun kv => !(vMem kv.1 boundKeys))
        .ok (some (bUpdate bindings
          [(r, .vDict ((approxChildren (dictItems remaining) (remaining.length : Int) []).1)
            remaining)]), c)
  | (key, p) :: krest =>
    match evalStep cfg c with
    | .error e => .error e
    | .ok c₁ =>
      match dLookup sd key with
      | none => .ok (none, c₁)
      | some v =>
        match patma cfg p v c₁ with
        | .error e => .error e
        | .ok (none, c₂) => .ok (none, c₂)
        | .ok (some m, c₂) =>
          if namesIntersect bound m then .error .draconicValueError
          else patmaMapItems cfg krest subject sd (bUpdate bindings m)
            (bound ++ m.map (fun kv => kv.1)) (boundKeys ++ [key]) rest c₂

/-- The `for pattern in node.patterns` loop of `_patma_match_or`
(`interpreter.py` lines 914-921). -/
def patmaOrList (cfg : Cfg) (ps : List Pattern) (subject : Value) (c : Nat) :
    Except ErrKind (Option Bindings × Nat) :=
  match ps with
  | [] => .ok (none, c)
  | p :: rest =>
    match patma cfg p subject c with
    | .error e => .error e
    | .ok (some m, c₁) => .ok (some m, c₁)
    | .ok (none, c₁) => patmaOrList cfg rest subject c₁

end

/-- A guard expression, evaluated by the counting `_eval`: a constant or
a name looked up in the locals. -/
inductive GExpr
  | const (v : Value)
  | name (x : VName)

/-- `self._eval(match_case.guard)` for the guard forms above. -/
def evalG (cfg : Cfg) (g : GExpr) (names : Bindings) (c : Nat) :
    Except ErrKind (Value × Nat) := do
  let c₁ ← evalStep cfg c
  match g with
  | .const v => .ok (v, c₁)
  | .name x =>
    match bLookup names x with
    | some v => .ok (v, c₁)
    | none => .error .notDefined

/-- One `ast.match_case`: pattern, optional guard, and the outcome of
`self._exec(match_case.body)` (abstracted). -/
structure MatchCase where
  pattern : Pattern
  guard : Option GExpr
  body : ExecOut

/-- `DraconicInterpreter._exec_match` (`interpreter.py` lines 784-791):
for each case, run `_patma`; on a match the bindings are merged into
`self._names` *before* the guard is evaluated; a falsy guard continues
to the next case — with the merged locals kept (no rollback); a truthy
or absent guard executes the body.  No case matching returns `None`. -/
def execMatch (cfg : Cfg) (subject : Value) :
    List MatchCase → Bindings → Nat → Except ErrKind (ExecOut × Bindings × Nat)
  | [], names, c => .ok (.done, names, c)
  | mc :: rest, names, c =>
    match patma cfg mc.pattern subject c with
    | .error e => .error e
    | .ok (none, c₁) => execMatch cfg subject rest names c₁
    | .ok (some b, c₁) =>
      let names' := bUpdate names b
      match mc.guard with
      | none => .ok (mc.body, names', c₁)
      | some g =>
        match evalG cfg g names' c₁ with
        | .error e => .error e
        | .ok (gv, c₂) =>
          if truthy gv then .ok (mc.body, names', c₂)
          else execMatch cfg subject rest names' c₂

-- ===== comprehensions (`_do_comprehension`) =====

/-- The interpreter state a comprehension touches: the locals dict
`self._names` and the stack of comprehension shadow scopes — each
`extra_names` dict installed by replacing `self.nodes[ast.Name]` with
`eval_names_extra` (innermost first; resolution falls back to the
previous name evaluator, ultimately the locals). -/
structure IState where
  names : Bindings
  extras : List Bindings

/-- Walk the chain of `eval_names_extra` closures. -/
def findInExtras : List Bindings → VName → Option Value
  | [], _ => none
  | e :: rest, x =>
    match bLookup e x with
    | some v => some v
    | none => findInExtras rest x

/-- Name resolution during (and after) a comprehension: the shadow
scopes first, then the locals; a missing name raises `NotDefined`. -/
def resolveName (st : IState) (x : VName) : Except ErrKind Value :=
  match findInExtras st.extras x with
  | some v => .ok v
  | none =>
    match bLookup st.names x with
    | some v => .ok v
    | none => .error .notDefined

/-- Expressions evaluated inside the comprehension model (the element
expression and the `if` clauses): constants and name reads. -/
inductive CExpr
  | const (v : Value)
  | name (x : VName)

/-- Evaluate a `CExpr` under the comprehension state. -/
def evalCExpr (st : IState) : CExpr → Except ErrKind Value
  | .const v => .ok v
  | .name x => resolveName st x

/-- `recurse_targets` (`interpreter.py` lines 553-562) for a simple name
target: `extra_names[target.id] = value` — the *shadow* dict is updated,
never the locals. -/
def recurseTargets (st : IState) (target : VName) (v : Value) : IState :=
  match st.extras with
  | [] => st
  | e :: rest => { st with extras := bSet e target v :: rest }

/-- `all(self._eval(iff) for iff in generator_node.ifs)`. -/
def evalAllIfs (st : IState) : List CExpr → Except ErrKind Bool
  | [] => .ok true
  | g :: rest =>
    match evalCExpr st g with
    | .error e => .error e
    | .ok v => if truthy v then evalAllIfs st rest else .ok false

/-- The `for i in self._eval(generator_node.iter)` loop of
`do_generator` (`interpreter.py` lines 564-590), single generator: per
item, count the loop against `max_loops`, bind the target into the
shadow scope, evaluate the `if`s, and on emission add
`approx_len_of(value) + 1` to the running total checked against
`max_const_len`.  Returns the outcome, the state (whose shadow carries
the last target binding) and the loop counter. -/
def comprLoop (cfg : Cfg) (target : VName) (elt : CExpr) (ifs : List CExpr) :
    List Value → IState → Nat → Int → List Value →
    Except ErrKind (List Value) × IState × Nat
  | [], st, loops, _, acc => (.ok acc, st, loops)
  | item :: rest, st, loops, totalLen, acc =>
    if loops + 1 > cfg.maxLoops then (.error .iterableTooLong, st, loops + 1)
    else
      let st₁ := recurseTargets st target item
      match evalAllIfs st₁ ifs with
      | .error e => (.error e, st₁, loops + 1)
      | .ok false => comprLoop cfg target elt ifs rest st₁ (loops + 1) totalLen acc
      | .ok true =>
        match evalCExpr st₁ elt with
        | .error e => (.error e, st₁, loops + 1)
        | .ok v =>
          let t := totalLen + approxLenOf v + 1
          if t > cfg.maxConstLen then (.error .iterableTooLong, st₁, loops + 1)
          else comprLoop cfg target elt ifs rest st₁ (loops + 1) t (acc ++ [v])

/-- `DraconicInterpreter._do_comprehension` (`interpreter.py`
lines 529-595), one generator clause: install a fresh shadow scope
(`self.nodes.update({ast.Name: eval_names_extra})`), run the generator
loop, and in the `finally` — on normal completion *and* on error —
restore the previous name evaluator
(`self.nodes.update({ast.Name: previous_name_evaller})`), dropping the
shadow scope.  The locals are never written. -/
def doComprehension (cfg : Cfg) (target : VName) (iterVals : List Value)
    (ifs : List CExpr) (elt : CExpr) (st : IState) (loops : Nat) :
    Except ErrKind (List Value) × IState × Nat :=
  let stIn : IState := { st with extras := [] :: st.extras }
  let r := comprLoop cfg target elt ifs iterVals stIn loops 0 []
  (r.1, { names := r.2.1.names, extras := r.2.1.extras.tail }, r.2.2)

/-- The invariant behind C1's amended claim: for a safe list built from
primitive elements, the cache equals the element count. -/
def InvList (l : SafeList) : Prop :=
  l.approxLen = l.data.length ∧ ∀ v ∈ l.data, isPrimitive v = true

/-- Mutations that insert only primitive elements (extension iterables
restricted to safe lists of primitives with an exact cache, and
multiplication to non-negative factors). -/
def lopPrim : LOp → Bool
  | .append v => isPrimitive v
  | .extend (.vList c es) => (c == (es.length : Int)) && es.all isPrimitive
  | .extend _ => false
  | .pop => true
  | .remove _ => true
  | .clear => true
  | .mul n => decide (0 ≤ n)

end Draconic


namespace Draconic

theorem approxLenOf_vList (c : Int) (d : List Value) : approxLenOf (.vList c d) = c := by
  simp [approxLenOf, approxVisited]

theorem approxLenOf_prim (v : Value) (h : isPrimitive v = true) : approxLenOf v = 0 := by
  cases v <;> simp_all [isPrimitive, approxLenOf, approxVisited]

theorem semanticSize_prim (v : Value) (h : isPrimitive v = true) : semanticSize v = 1 := by
  cases v <;> simp_all [isPrimitive, semanticSize]

theorem semanticSizeList_prim (d : List Value) (h : ∀ v ∈ d, isPrimitive v = true) :
    semanticSizeList d = d.length := by
  induction d with
  | nil => simp [semanticSizeList]
  | cons v rest ih =>
    rw [semanticSizeList, semanticSize_prim v (h v (by simp)), ih (fun x hx => h x (by simp [hx]))]
    simp
    omega

theorem removeFirst_length (x : Value) (l : List Value) (h : vMem x l = true) :
    (removeFirst x l).length + 1 = l.length := by
  induction l with
  | nil => simp [vMem] at h
  | cons y rest ih =>
    by_cases hy : vEq y x
    · simp [removeFirst, hy]
    · have hm : vMem x rest = true := by
        simp [vMem] at h ⊢
        rcases h with h | h
        · exact absurd h hy
        · exact h
      simp [removeFirst, hy]
      exact ih hm

theorem removeFirst_mem (x y : Value) (l : List Value) (h : y ∈ removeFirst x l) : y ∈ l := by
  induction l with
  | nil => simp [removeFirst] at h
  | cons z rest ih =>
    by_cases hz : vEq z x
    · simp [removeFirst, hz] at h
      simp [h]
    · simp [removeFirst, hz] at h
      rcases h with h | h
      · simp [h]
      · simp [ih h]

theorem listMul_length (d : List Value) (n : Int) :
    (listMul d n).length = n.toNat * d.length := by
  simp [listMul]

theorem listMul_mem (d : List Value) (n : Int) (y : Value) (h : y ∈ listMul d n) : y ∈ d := by
  simp [listMul] at h
  rcases h with ⟨l, hl, hy⟩
  rcases hl with ⟨-, rfl⟩
  exact hy

theorem applyLOp_inv (cfg : Cfg) (l : SafeList) (op : LOp) (hop : lopPrim op = true)
    (hinv : InvList l) (l' : SafeList) (hok : applyLOp cfg l op = .ok l') : InvList l' := by
  obtain ⟨hlen, hprim⟩ := hinv
  cases op with
  | append v =>
    by_cases hg : l.approxLen + 1 > cfg.maxConstLen
    · simp [applyLOp, SafeList.append, hg] at hok
    · simp [applyLOp, SafeList.append, hg] at hok
      subst hok
      refine ⟨by simp [hlen], ?_⟩
      intro x hx
      simp at hx
      rcases hx with hx | rfl
      · exact hprim x hx
      · simpa [lopPrim] using hop
  | extend it =>
    cases it <;> simp [lopPrim] at hop
    case vList c es =>
    obtain ⟨hc, hes⟩ := hop
    by_cases hg : l.approxLen + c > cfg.maxConstLen
    · simp [applyLOp, SafeList.extend, approxLenOf_vList, hg] at hok
    · simp [applyLOp, SafeList.extend, approxLenOf_vList, iterElems, hg] at hok
      subst hok
      refine ⟨by simp [hlen, hc], ?_⟩
      intro x hx
      simp at hx
      rcases hx with hx | hx
      · exact hprim x hx
      · exact hes x hx
  | pop =>
    cases hd : l.data.getLast? with
    | none => simp [applyLOp, SafeList.pop, hd, Except.map] at hok
    | some last =>
      simp [applyLOp, SafeList.pop, hd, Except.map] at hok
      subst hok
      have hne : l.data ≠ [] := by
        intro hnil
        simp [hnil] at hd
      have hpos : 1 ≤ l.data.length := List.length_pos.mpr hne
      refine ⟨?_, ?_⟩
      · simp [List.length_dropLast, hlen]
        omega
      · intro x hx
        exact hprim x (List.dropLast_subset _ hx)
  | remove v =>
    by_cases hmem : vMem v l.data = true
    · simp [applyLOp, SafeList.remove, hmem] at hok
      subst hok
      refine ⟨?_, ?_⟩
      · have := removeFirst_length v l.data hmem
        simp [hlen]
        omega
      · intro x hx
        exact hprim x (removeFirst_mem v x l.data hx)
    · simp [applyLOp, SafeList.remove, hmem] at hok
  | clear =>
    simp [applyLOp, SafeList.clear] at hok
    subst hok
    exact ⟨by simp, by simp⟩
  | mul n =>
    simp [lopPrim] at hop
    simp [applyLOp, SafeList.mul] at hok
    subst hok
    refine ⟨?_, ?_⟩
    · show l.approxLen * n = ((listMul l.data n).length : Int)
      rw [listMul_length, hlen]
      push_cast
      rw [Int.toNat_of_nonneg hop]
      ring
    · intro x hx
      exact hprim x (listMul_mem l.data n x hx)

theorem applyLOps_inv (cfg : Cfg) (ops : List LOp) (hops : ∀ op ∈ ops, lopPrim op = true)
    (l : SafeList) (hinv : InvList l) (l' : SafeList)
    (hok : applyLOps cfg l ops = .ok l') : InvList l' := by
  induction ops generalizing l with
  | nil =>
    simp [applyLOps] at hok
    subst hok
    exact hinv
  | cons op rest ih =>
    rw [applyLOps] at hok
    cases hmid : applyLOp cfg l op with
    | error e =>
      rw [hmid] at hok
      have hbad : (Except.error e : Except ErrKind SafeList) = .ok l' := hok
      simp at hbad
    | ok lmid =>
      rw [hmid] at hok
      have hok2 : applyLOps cfg lmid rest = .ok l' := hok
      exact ih (fun o ho => hops o (by simp [ho])) lmid
        (applyLOp_inv cfg l op (hops op (by simp)) hinv lmid hmid) hok2

end Draconic

namespace Draconic

/-- Claim C1 (counterexample): two containers reachable by script-visible
constructions and mutations whose cached `approx_len` is strictly below
their semantic size.  `l = []` then `l.append("abc")` leaves the cache at
1 (`append` adds 1 whatever the element) while the semantic size is 3;
`d = {}` then `d[1] = 2` leaves the cache at 0 (`__setitem__` adds only
`approx_len_of(value)`, which is 0 for a primitive) while the dict now
has an entry of semantic size 2. -/
theorem C1_counterexample :
    SafeList.append defaultConfig (safeListNew []) (.vStr "abc") =
      .ok { data := [.vStr "abc"], approxLen := 1 } ∧
    SafeDict.setitem defaultConfig (safeDictNew []) (.vInt 1) (.vInt 2) =
      .ok { data := [(.vInt 1, .vInt 2)], approxLen := 0 } ∧
    ({ data := [.vStr "abc"], approxLen := 1 } : SafeList).approxLen
      < semanticSize (SafeList.toValue { data := [.vStr "abc"], approxLen := 1 }) ∧
    ({ data := [(.vInt 1, .vInt 2)], approxLen := 0 } : SafeDict).approxLen
      < semanticSize (SafeDict.toValue { data := [(.vInt 1, .vInt 2)], approxLen := 0 }) := by
  refine ⟨?_, ?_, ?_, ?_⟩
  · simp [SafeList.append, safeListNew, containerFreshLen, approxChildren, defaultConfig]
  · simp [SafeDict.setitem, safeDictNew, dictItems, approxChildren, approxLenOf, approxVisited,
      dSet, defaultConfig]
  · simp [SafeList.toValue, semanticSize, semanticSizeList]
    decide
  · simp [SafeDict.toValue, semanticSize, semanticSizePairs]

/-- Claim C1 (amended): the overestimate invariant as the code maintains it —
for a safe sequence built from the empty list by script-visible mutations
that only ever insert *primitive* elements (and multiply by non-negative
counts), the cached `approx_len` equals the element count and hence is
never below the semantic size.  (For string or compound elements the
claim fails: `append` adds 1 and `__setitem__` adds only the value's
approximate length, see the counterexample.) -/
theorem C1_amended_overestimate_for_primitive_lists (cfg : Cfg) (ops : List LOp)
    (hops : ∀ op ∈ ops, lopPrim op = true) (l' : SafeList)
    (hok : applyLOps cfg (safeListNew []) ops = .ok l') :
    semanticSize (SafeList.toValue l') ≤ l'.approxLen := by
  have hstart : InvList (safeListNew []) := by
    constructor
    · simp [safeListNew, containerFreshLen, approxChildren]
    · simp [safeListNew]
  obtain ⟨hlen, hprim⟩ := applyLOps_inv cfg ops hops _ hstart l' hok
  rw [SafeList.toValue]
  rw [show semanticSize (Value.vList l'.approxLen l'.data) = semanticSizeList l'.data from by
    simp [semanticSize]]
  rw [semanticSizeList_prim l'.data hprim, hlen]

/-- Claim C1 (witness): the amended theorem applied to the mutation sequence
`l = []; l.append(1); l.extend([2, 3]); l.pop()`. -/
theorem C1_amended_witness :
    applyLOps defaultConfig (safeListNew [])
      [.append (.vInt 1), .extend (.vList 2 [.vInt 2, .vInt 3]), .pop] =
      .ok { data := [.vInt 1, .vInt 2], approxLen := 2 } ∧
    semanticSize (SafeList.toValue { data := [.vInt 1, .vInt 2], approxLen := 2 }) ≤ 2 := by
  have hrun : applyLOps defaultConfig (safeListNew [])
      [.append (.vInt 1), .extend (.vList 2 [.vInt 2, .vInt 3]), .pop] =
      .ok { data := [.vInt 1, .vInt 2], approxLen := 2 } := by
    simp [applyLOps, applyLOp, SafeList.append, SafeList.extend, SafeList.pop, safeListNew,
      containerFreshLen, approxChildren, approxLenOf, approxVisited, iterElems, defaultConfig,
      Except.bind, Except.map, bind]
  refine ⟨hrun, ?_⟩
  exact C1_amended_overestimate_for_primitive_lists defaultConfig _
    (by intro op hop; fin_cases hop <;> simp [lopPrim, isPrimitive]) _ hrun

end Draconic


namespace Draconic

/-- Claim C2 (counterexample): within `max_const_len = 5`, `s = set()` then
`s.add("aaaaaa")` succeeds (the guard only adds 1, leaving the cache
at 1), and `s.union(set())` then succeeds — its guard sees only the
cached 1 — yet the returned set's freshly recomputed `approx_len` is 7,
above the ceiling: the mutator neither raised `IterableTooLong` nor kept
`approx_len` within `max_const_len`. -/
theorem C2_counterexample :
    SafeSet.add { maxConstLen := 5 } (safeSetNew []) (.vStr "aaaaaa") =
      .ok { data := [.vStr "aaaaaa"], approxLen := 1 } ∧
    SafeSet.union { maxConstLen := 5 } { data := [.vStr "aaaaaa"], approxLen := 1 }
      [.vSet 0 []] = .ok { data := [.vStr "aaaaaa"], approxLen := 7 } ∧
    ({ maxConstLen := 5 } : Cfg).maxConstLen <
      ({ data := [.vStr "aaaaaa"], approxLen := 7 } : SafeSet).approxLen := by
  refine ⟨?_, ?_, by norm_num⟩
  · simp [SafeSet.add, safeSetNew, setFromList, containerFreshLen, approxChildren, setInsert,
      vMem]
  · simp [SafeSet.union, approxLenOf, approxVisited, iterElems, containerFreshLen,
      approxChildren, setInsert, vMem, vEq, iterElemsAll]
    decide

/-- Claim C2 (amended): the claimed either/or holds for the *in-place* growing
mutators — list `append`/`extend`, set `add`/`update`, dict
`update`/`__setitem__`: on success the (cached) `approx_len` of the
mutated container is at most `max_const_len`, and a failed length guard
raises `IterableTooLong` before any mutation (a non-iterable argument
raises `TypeError` instead).  `set.union`, which returns a *new* set
whose `approx_len` is recomputed fresh, can exceed the ceiling because
the operands' caches may underestimate (see the counterexample). -/
theorem C2_amended_inplace_mutators_bounded (cfg : Cfg) :
    (∀ l v l', SafeList.append cfg l v = .ok l' → l'.approxLen ≤ cfg.maxConstLen) ∧
    (∀ l v e, SafeList.append cfg l v = .error e → e = .iterableTooLong) ∧
    (∀ l it l', SafeList.extend cfg l it = .ok l' → l'.approxLen ≤ cfg.maxConstLen) ∧
    (∀ l it e, SafeList.extend cfg l it = .error e →
      e = .iterableTooLong ∨ e = .typeError) ∧
    (∀ s v s', SafeSet.add cfg s v = .ok s' → s'.approxLen ≤ cfg.maxConstLen) ∧
    (∀ s v e, SafeSet.add cfg s v = .error e → e = .iterableTooLong) ∧
    (∀ s os s', SafeSet.update cfg s os = .ok s' → s'.approxLen ≤ cfg.maxConstLen) ∧
    (∀ s os e, SafeSet.update cfg s os = .error e →
      e = .iterableTooLong ∨ e = .typeError) ∧
    (∀ d k v d', SafeDict.setitem cfg d k v = .ok d' → d'.approxLen ≤ cfg.maxConstLen) ∧
    (∀ d k v e, SafeDict.setitem cfg d k v = .error e → e = .iterableTooLong) ∧
    (∀ d o d', SafeDict.update cfg d o = .ok d' → d'.approxLen ≤ cfg.maxConstLen) ∧
    (∀ d o e, SafeDict.update cfg d o = .error e →
      e = .iterableTooLong ∨ e = .typeError) := by
  refine ⟨?_, ?_, ?_, ?_, ?_, ?_, ?_, ?_, ?_, ?_, ?_, ?_⟩
  · intro l v l' h
    by_cases hg : l.approxLen + 1 > cfg.maxConstLen
    · simp [SafeList.append, hg] at h
    · simp [SafeList.append, hg] at h
      rcases h with ⟨-, rfl⟩
      show l.approxLen + 1 ≤ cfg.maxConstLen
      omega
  · intro l v e h
    by_cases hg : l.approxLen + 1 > cfg.maxConstLen
    · simp [SafeList.append, hg] at h
      exact h.symm
    · simp [SafeList.append, hg] at h
  · intro l it l' h
    by_cases hg : l.approxLen + approxLenOf it > cfg.maxConstLen
    · simp [SafeList.extend, hg] at h
    · simp [SafeList.extend, hg] at h
      cases hit : iterElems it <;> simp [hit] at h
      rcases h with ⟨-, rfl⟩
      show l.approxLen + approxLenOf it ≤ cfg.maxConstLen
      omega
  · intro l it e h
    by_cases hg : l.approxLen + approxLenOf it > cfg.maxConstLen
    · simp [SafeList.extend, hg] at h
      exact Or.inl h.symm
    · simp [SafeList.extend, hg] at h
      cases hit : iterElems it <;> simp [hit] at h
      exact Or.inr h.symm
  · intro s v s' h
    by_cases hg : s.approxLen + 1 > cfg.maxConstLen
    · simp [SafeSet.add, hg] at h
    · simp [SafeSet.add, hg] at h
      rcases h with ⟨-, rfl⟩
      show s.approxLen + 1 ≤ cfg.maxConstLen
      omega
  · intro s v e h
    by_cases hg : s.approxLen + 1 > cfg.maxConstLen
    · simp [SafeSet.add, hg] at h
      exact h.symm
    · simp [SafeSet.add, hg] at h
  · intro s os s' h
    by_cases hg : s.approxLen + (os.map approxLenOf).sum > cfg.maxConstLen
    · simp [SafeSet.update, hg] at h
    · simp [SafeSet.update, hg] at h
      cases hos : iterElemsAll os <;> simp [hos] at h
      rcases h with ⟨-, rfl⟩
      show s.approxLen + (os.map approxLenOf).sum ≤ cfg.maxConstLen
      omega
  · intro s os e h
    by_cases hg : s.approxLen + (os.map approxLenOf).sum > cfg.maxConstLen
    · simp [SafeSet.update, hg] at h
      exact Or.inl h.symm
    · simp [SafeSet.update, hg] at h
      cases hos : iterElemsAll os <;> simp [hos] at h
      exact Or.inr h.symm
  · intro d k v d' h
    by_cases hg : d.approxLen + approxLenOf v > cfg.maxConstLen
    · simp [SafeDict.setitem, hg] at h
    · simp [SafeDict.setitem, hg] at h
      rcases h with ⟨-, rfl⟩
      show d.approxLen + approxLenOf v ≤ cfg.maxConstLen
      omega
  · intro d k v e h
    by_cases hg : d.approxLen + approxLenOf v > cfg.maxConstLen
    · simp [SafeDict.setitem, hg] at h
      exact h.symm
    · simp [SafeDict.setitem, hg] at h
  · intro d o d' h
    by_cases hg : d.approxLen + approxLenOf o > cfg.maxConstLen
    · simp [SafeDict.update, hg] at h
    · cases o
      all_goals simp [SafeDict.update, hg] at h
      rename_i c od
      rcases h with ⟨-, rfl⟩
      show d.approxLen + approxLenOf (.vDict c od) ≤ cfg.maxConstLen
      omega
  · intro d o e h
    by_cases hg : d.approxLen + approxLenOf o > cfg.maxConstLen
    · simp [SafeDict.update, hg] at h
      exact Or.inl h.symm
    · cases o
      all_goals simp [SafeDict.update, hg] at h
      all_goals exact Or.inr h.symm

/-- Claim C2 (witness): the amended theorem applied to `[].append(1)` under
the default configuration. -/
theorem C2_amended_witness :
    SafeList.append defaultConfig { data := [], approxLen := 0 } (.vInt 1) =
      .ok { data := [.vInt 1], approxLen := 1 } ∧
    ({ data := [.vInt 1], approxLen := 1 } : SafeList).approxLen ≤
      defaultConfig.maxConstLen := by
  have h : SafeList.append defaultConfig { data := [], approxLen := 0 } (.vInt 1) =
      .ok { data := [.vInt 1], approxLen := 1 } := by
    simp [SafeList.append, defaultConfig]
  exact ⟨h, (C2_amended_inplace_mutators_bounded defaultConfig).1 _ _ _ h⟩

end Draconic

namespace Draconic

/-- Claim C6 (counterexample): under the default configuration
(`max_const_len = 200000`), `50000*'text'` does *not* raise
`IterableTooLong`: `_safe_mult`'s guard is the strict
`50000 * approx_len_of('text') > max_const_len`, and
`50000 * 4 = 200000` is not greater than `200000`, so the
200000-character string is built and returned. -/
theorem C6_counterexample :
    safeMult defaultConfig (.vInt 50000) (.vStr "text") ≠ .error .iterableTooLong ∧
    (safeMult defaultConfig (.vInt 50000) (.vStr "text")).isOk = true := by
  have hlen : approxLenOf (.vStr "text") = 4 := by
    simp [approxLenOf, approxVisited]
    decide
  have hg : mulGuard defaultConfig (.vInt 50000) (.vStr "text") = false := by
    simp [mulGuard, hlen, defaultConfig]
  have hg' : mulGuard defaultConfig (.vStr "text") (.vInt 50000) = false := by
    simp [mulGuard]
  constructor
  · simp [safeMult, hg, hg', pyMult]
  · simp [safeMult, hg, hg', pyMult, Except.isOk, Except.toBool]

/-- Claim C6 (amended): `"50000*'text'"` raises `IterableTooLong` exactly when
`50000 * 4` exceeds `max_const_len`; with the default 200000 the product
sits exactly at the bound and the multiplication succeeds, while with
`max_const_len = 100000` — the value the adapted-from-simpleeval breakout
tests run under — it raises `IterableTooLong`. -/
theorem C6_amended_mult_guard_strict :
    safeMult { maxConstLen := 100000 } (.vInt 50000) (.vStr "text") =
      .error .iterableTooLong ∧
    (safeMult defaultConfig (.vInt 50000) (.vStr "text")).isOk = true := by
  have hlen : approxLenOf (.vStr "text") = 4 := by
    simp [approxLenOf, approxVisited]
    decide
  constructor
  · have hg : mulGuard { maxConstLen := 100000 } (.vStr "text") (.vInt 50000) = false := by
      simp [mulGuard]
    have hg2 : mulGuard { maxConstLen := 100000 } (.vInt 50000) (.vStr "text") = true := by
      simp [mulGuard, hlen]
    simp [safeMult, hg, hg2]
  · have hg : mulGuard defaultConfig (.vInt 50000) (.vStr "text") = false := by
      simp [mulGuard, hlen, defaultConfig]
    have hg' : mulGuard defaultConfig (.vStr "text") (.vInt 50000) = false := by
      simp [mulGuard]
    simp [safeMult, hg, hg', pyMult, Except.isOk, Except.toBool]

/-- Claim C7: the (spec-modelled) integer magnitude discipline.  For `-`: a
successful subtraction returns exactly `a - b`, with both operands and
the result within `[min_int, max_int]`, and any out-of-range operand or
result yields `NumberTooHigh`.  For `<<`: with in-range non-negative
operands a shift count of at least `max_int_size − 1` is refused with
`NumberTooHigh`, and a successful shift returns `a * 2^b` within range
with `b < max_int_size − 1`. -/
theorem C7_int_limits_sub_lshift (cfg : Cfg) (a b : Int) :
    (∀ r, safeSub cfg a b = .ok r →
      r = a - b ∧ cfg.minInt ≤ r ∧ r ≤ cfg.maxInt ∧
      cfg.minInt ≤ a ∧ a ≤ cfg.maxInt ∧ cfg.minInt ≤ b ∧ b ≤ cfg.maxInt) ∧
    ((a < cfg.minInt ∨ a > cfg.maxInt ∨ b < cfg.minInt ∨ b > cfg.maxInt ∨
        a - b < cfg.minInt ∨ a - b > cfg.maxInt) →
      safeSub cfg a b = .error .numberTooHigh) ∧
    (cfg.minInt ≤ a → a ≤ cfg.maxInt → 0 ≤ b → b ≤ cfg.maxInt →
      b ≥ (cfg.maxIntSize : Int) - 1 → safeLshift cfg a b = .error .numberTooHigh) ∧
    (∀ r, safeLshift cfg a b = .ok r →
      r = a * 2 ^ b.toNat ∧ cfg.minInt ≤ r ∧ r ≤ cfg.maxInt ∧
      b < (cfg.maxIntSize : Int) - 1) := by
  refine ⟨?_, ?_, ?_, ?_⟩
  · intro r h
    by_cases h1 : a < cfg.minInt ∨ a > cfg.maxInt <;>
      by_cases h2 : b < cfg.minInt ∨ b > cfg.maxInt <;>
        by_cases h3 : a - b < cfg.minInt ∨ a - b > cfg.maxInt <;>
          simp [safeSub, intLimitCheck, h1, h2, h3] at h
    subst h
    refine ⟨rfl, ?_, ?_, ?_, ?_, ?_, ?_⟩ <;> omega
  · intro hrange
    by_cases h1 : a < cfg.minInt ∨ a > cfg.maxInt <;>
      by_cases h2 : b < cfg.minInt ∨ b > cfg.maxInt <;>
        by_cases h3 : a - b < cfg.minInt ∨ a - b > cfg.maxInt <;>
          simp [safeSub, intLimitCheck, h1, h2, h3]
    omega
  · intro ha₁ ha₂ hb₀ hb₂ hshift
    have hpow : (0 : Int) ≤ 2 ^ (cfg.maxIntSize - 1) := pow_nonneg (by norm_num) _
    have hmin0 : cfg.minInt ≤ 0 := by
      unfold Cfg.minInt
      omega
    have h1 : ¬(a < cfg.minInt ∨ a > cfg.maxInt) := by omega
    have h2 : ¬(b < cfg.minInt ∨ b > cfg.maxInt) := by omega
    have h3 : ¬(b < 0) := by omega
    simp [safeLshift, intLimitCheck, h1, h2, h3, hshift]
  · intro r h
    by_cases h1 : a < cfg.minInt ∨ a > cfg.maxInt <;>
      by_cases h2 : b < cfg.minInt ∨ b > cfg.maxInt <;>
        by_cases hb0 : b < 0 <;>
          by_cases hsh : b ≥ (cfg.maxIntSize : Int) - 1 <;>
            by_cases h3 : a * 2 ^ b.toNat < cfg.minInt ∨ a * 2 ^ b.toNat > cfg.maxInt <;>
              simp [safeLshift, intLimitCheck, h1, h2, hb0, hsh, h3] at h
    subst h
    refine ⟨rfl, ?_, ?_, ?_⟩ <;> omega

/-- Claim C7 (witness): under the default `max_int_size = 64`
(`min_int = -2^63`, `max_int = 2^63 - 1`): `(2^63 - 1) - (-1)` overflows
and raises `NumberTooHigh`; `1 << 63` is refused (shift count `≥ 63`);
`3 << 2` succeeds with the in-range result `12`. -/
theorem C7_witness :
    safeSub defaultConfig (2 ^ 63 - 1) (-1) = .error .numberTooHigh ∧
    safeLshift defaultConfig 1 63 = .error .numberTooHigh ∧
    safeLshift defaultConfig 3 2 = .ok 12 ∧ (12 : Int) ≤ defaultConfig.maxInt := by
  have hok : safeLshift defaultConfig 3 2 = .ok 12 := by
    simp [safeLshift, intLimitCheck, defaultConfig, Cfg.minInt, Cfg.maxInt]
  refine ⟨?_, ?_, hok, ((C7_int_limits_sub_lshift defaultConfig 3 2).2.2.2 12 hok).2.2.1⟩
  · exact (C7_int_limits_sub_lshift defaultConfig (2 ^ 63 - 1) (-1)).2.1
      (by unfold defaultConfig Cfg.minInt Cfg.maxInt; norm_num)
  · exact (C7_int_limits_sub_lshift defaultConfig 1 63).2.2.1
      (by unfold defaultConfig Cfg.minInt; norm_num)
      (by unfold defaultConfig Cfg.maxInt; norm_num)
      (by norm_num)
      (by unfold defaultConfig Cfg.maxInt; norm_num)
      (by unfold defaultConfig; norm_num)

end Draconic

namespace Draconic

/-- Claim C3 (counterexample): a `try` whose body raises the limit error
`NumberTooHigh`, with a bare `except` handler and a `finally` containing
a `return`: the handler indeed never runs, but the `return` sentinel
produced by the `finally` body overrides — and, per Python's
`return`-inside-`finally` semantics, discards — the in-flight limit
error, so the error does *not* surface to the caller: `_exec_try`
returns the value 3. -/
theorem C3_counterexample :
    execTry (.exc (.plain .numberTooHigh))
      [{ clause := .bare, hasAsName := false, body := .done }]
      .done (.sent (.ret (some (.vInt 3)))) = .sent (.ret (some (.vInt 3))) := by
  simp [execTry]

/-- Claim C3 (amended): a script-level `try` can never *catch* a limit error —
whatever the handlers (bare included) and however deeply the error was
wrapped by user-function-call boundaries, no handler body runs and the
error propagates — and it surfaces to the caller whenever the `finally`
body completes normally; a `finally` that itself surfaces a
`return`/`break`/`continue` sentinel replaces the in-flight error
(the spec's own `finally`-override rule), and an exception raised inside
`finally` propagates in its place. -/
theorem C3_amended_limit_errors_uncatchable (e : Exc) (handlers : List Handler)
    (orelse : ExecOut) (hlimit : e.originalKind.isLimit = true) :
    execTry (.exc e) handlers orelse .done = .exc e ∧
    (∀ s, execTry (.exc e) handlers orelse (.sent s) = .sent s) ∧
    (∀ e', execTry (.exc e) handlers orelse (.exc e') = .exc e') := by
  refine ⟨?_, ?_, ?_⟩ <;> simp [execTry, hlimit]

/-- Claim C3 (witness): the amended theorem applied to a `TooMuchRecursion`
wrapped by one user-call boundary, a bare handler, and a `finally` that
completes normally: the wrapped limit error propagates. -/
theorem C3_witness :
    (Exc.nested (.plain .tooMuchRecursion)).originalKind.isLimit = true ∧
    execTry (.exc (.nested (.plain .tooMuchRecursion)))
      [{ clause := .bare, hasAsName := false, body := .done }] .done .done =
      .exc (.nested (.plain .tooMuchRecursion)) := by
  refine ⟨rfl, ?_⟩
  exact (C3_amended_limit_errors_uncatchable (.nested (.plain .tooMuchRecursion))
    [{ clause := .bare, hasAsName := false, body := .done }] .done rfl).1

/-- Claim C4 (counterexample): a `return` sentinel surfacing to the top of
`eval` is *not* reported as a syntax error — `DraconicInterpreter.eval`
returns the sentinel's value (`interpreter.py` lines 425-426); only
`break`/`continue` raise `DraconicSyntaxError`. -/
theorem C4_counterexample :
    evalTop (some (.sent (.ret (some (.vInt 5))))) = .ok (some (.vInt 5)) ∧
    evalTop (some (.sent (.ret (some (.vInt 5))))) ≠ .error .draconicSyntaxError := by
  exact ⟨rfl, by simp [evalTop]⟩

/-- Claim C4 (amended): for the `eval` entry point, empty source evaluates to
none; a `break` or `continue` sentinel surfacing to the top raises
`DraconicSyntaxError` ("Loop control outside loop"); but a `return`
sentinel is unwrapped and its value returned (as for `execute`). -/
theorem C4_amended_eval_toplevel (v : Option Value) :
    evalTop none = .ok none ∧
    evalTop (some (.val v)) = .ok v ∧
    evalTop (some (.sent (.ret v))) = .ok v ∧
    evalTop (some (.sent .brk)) = .error .draconicSyntaxError ∧
    evalTop (some (.sent .cont)) = .error .draconicSyntaxError :=
  ⟨rfl, rfl, rfl, rfl, rfl⟩

/-- Claim C5 (counterexample): `x = 1; def f(): return x; x = 2; f()` returns
2, not 1: the function object captures a *reference* to the live
enclosing names dict (`names_at_def = self._names`), the copy is only
taken at call time, so the rebinding of `x` after the definition *is*
visible inside `f` (pinned by
`tests/test_functions.py::test_function_scoping`, "thanks, python"). -/
theorem C5_counterexample :
    (callNamed
      (assignName
        (evalFunctionDef { store := [[("x", .cint 1)]], cur := 0 } "f" (.retName "x"))
        "x" (.cint 2))
      "f").1 = .ok (.cint 2) ∧
    (Except.ok (.cint 2) : Except ErrKind CVal) ≠ .ok (.cint 1) := by
  exact ⟨rfl, by simp⟩

/-- Claim C5 (amended): the closure holds the enclosing dict by reference and
the environment copy happens at call time, so a call made *after*
rebinding observes the new value `v₂`, while a call made *before* the
rebinding observes `v₁`; rebinding the name inside the callee would hit
only the call-time copy. -/
theorem C5_amended_closure_sees_later_rebinding (v₁ v₂ : Int) :
    (callNamed
      (assignName
        (evalFunctionDef { store := [[("x", .cint v₁)]], cur := 0 } "f" (.retName "x"))
        "x" (.cint v₂))
      "f").1 = .ok (.cint v₂) ∧
    (callNamed
      (evalFunctionDef { store := [[("x", .cint v₁)]], cur := 0 } "f" (.retName "x"))
      "f").1 = .ok (.cint v₁) :=
  ⟨rfl, rfl⟩

end Draconic

namespace Draconic

/-- Claim C8: in `_exec_match`, when a case's pattern matches, all of the
pattern's bindings are merged into the locals (`self._names.update`)
*before* the guard is evaluated — the guard hypothesis below reads the
guard under `bUpdate names b` — and when the guard is falsy, execution
continues with the remaining cases *keeping* the merged locals: the
bindings are not rolled back. -/
theorem C8_bindings_merged_before_guard_persist (cfg : Cfg) (subject : Value)
    (p : Pattern) (g : GExpr) (bodyRes : ExecOut) (rest : List MatchCase)
    (names b : Bindings) (c c₁ c₂ : Nat) (gv : Value)
    (hp : patma cfg p subject c = .ok (some b, c₁))
    (hg : evalG cfg g (bUpdate names b) c₁ = .ok (gv, c₂))
    (hfalse : truthy gv = false) :
    execMatch cfg subject ({ pattern := p, guard := some g, body := bodyRes } :: rest)
      names c = execMatch cfg subject rest (bUpdate names b) c₂ := by
  simp [execMatch, hp, hg, hfalse]

/-- Claim C8 (witness): `match (1,): case (x,) if False: ... case ...` — the
capture of `x` is merged into the (empty) locals, the falsy guard is
evaluated under that binding, and the remaining cases run with `x` still
bound. -/
theorem C8_witness :
    patma defaultConfig (.sequence [.as_ none (some "x")]) (.vTuple [.vInt 1]) 0 =
      .ok (some [("x", .vInt 1)], 2) ∧
    evalG defaultConfig (.const (.vBool false)) (bUpdate [] [("x", .vInt 1)]) 2 =
      .ok (.vBool false, 3) ∧
    execMatch defaultConfig (.vTuple [.vInt 1])
      [{ pattern := .sequence [.as_ none (some "x")], guard := some (.const (.vBool false)),
         body := .done }] [] 0 =
      execMatch defaultConfig (.vTuple [.vInt 1]) [] [("x", .vInt 1)] 3 := by
  have hp : patma defaultConfig (.sequence [.as_ none (some "x")]) (.vTuple [.vInt 1]) 0 =
      .ok (some [("x", .vInt 1)], 2) := by
    simp [patma, patmaSequence, patmaPairs, starIdxs, isStarPat, List.enum, namesIntersect,
      bUpdate, bSet]
  have hg : evalG defaultConfig (.const (.vBool false)) (bUpdate [] [("x", .vInt 1)]) 2 =
      .ok (.vBool false, 3) := by
    simp [evalG, evalStep, bUpdate, bSet, defaultConfig, Except.bind, bind]
  refine ⟨hp, hg, ?_⟩
  have := C8_bindings_merged_before_guard_persist defaultConfig (.vTuple [.vInt 1])
    (.sequence [.as_ none (some "x")]) (.const (.vBool false)) .done [] [] [("x", .vInt 1)]
    0 2 3 (.vBool false) hp hg rfl
  simpa [bUpdate, bSet] using this

/-- The shape-preservation behind C9: the generator loop only rewrites
the innermost shadow scope; the locals and the enclosing shadow stack
pass through untouched, on every exit path (normal completion, loop
limit, a raising `if` clause or element expression, length limit). -/
theorem comprLoop_preserves_outer (cfg : Cfg) (target : VName) (elt : CExpr)
    (ifs : List CExpr) (items : List Value) (e : Bindings) (names : Bindings)
    (rest : List Bindings) (loops : Nat) (tl : Int) (acc : List Value) :
    ∃ e', (comprLoop cfg target elt ifs items { names := names, extras := e :: rest }
      loops tl acc).2.1 = { names := names, extras := e' :: rest } := by
  induction items generalizing e loops tl acc with
  | nil => exact ⟨e, rfl⟩
  | cons item rem ih =>
    by_cases hl : loops + 1 > cfg.maxLoops
    · exact ⟨e, by simp [comprLoop, hl]⟩
    · have hrt : recurseTargets { names := names, extras := e :: rest } target item =
          { names := names, extras := bSet e target item :: rest } := by
        simp [recurseTargets]
      cases hifs : evalAllIfs { names := names, extras := bSet e target item :: rest } ifs with
      | error err => exact ⟨bSet e target item, by simp [comprLoop, hl, hrt, hifs]⟩
      | ok pass =>
        cases pass with
        | false =>
          obtain ⟨e', he'⟩ := ih (bSet e target item) (loops + 1) tl acc
          exact ⟨e', by simp [comprLoop, hl, hrt, hifs]; exact he'⟩
        | true =>
          cases helt : evalCExpr { names := names, extras := bSet e target item :: rest } elt with
          | error err => exact ⟨bSet e target item, by simp [comprLoop, hl, hrt, hifs, helt]⟩
          | ok v =>
            by_cases hlen : tl + approxLenOf v + 1 > cfg.maxConstLen
            · exact ⟨bSet e target item, by simp [comprLoop, hl, hrt, hifs, helt, hlen]⟩
            · obtain ⟨e', he'⟩ := ih (bSet e target item) (loops + 1)
                (tl + approxLenOf v + 1) (acc ++ [v])
              exact ⟨e', by simp [comprLoop, hl, hrt, hifs, helt, hlen]; exact he'⟩

/-- Claim C9: whether the comprehension completes normally or raises (loop
limit, failing `if`, failing element expression, length limit), the
state `_do_comprehension` hands back is exactly the state it started
from: the shadow scope installed for the iteration variables is removed
by the `finally`, the locals were never written, and in particular the
target name's binding in the enclosing scope is untouched — comprehension
targets never leak. -/
theorem C9_comprehension_restores_scope (cfg : Cfg) (target : VName)
    (iterVals : List Value) (ifs : List CExpr) (elt : CExpr) (st : IState) (loops : Nat) :
    (doComprehension cfg target iterVals ifs elt st loops).2.1 = st ∧
    bLookup (doComprehension cfg target iterVals ifs elt st loops).2.1.names target =
      bLookup st.names target := by
  obtain ⟨e', he'⟩ := comprLoop_preserves_outer cfg target elt ifs iterVals [] st.names
    st.extras loops 0 []
  have hst : (doComprehension cfg target iterVals ifs elt st loops).2.1 = st := by
    simp [doComprehension, he']
  exact ⟨hst, by rw [hst]⟩

/-- Claim C10: `_patma`'s per-sub-pattern counting is unchecked.  A capture
pattern increments `_num_stmts` by exactly one and succeeds at *any*
counter value — including values already beyond `max_statements`; a
two-capture sequence pattern visited in full adds one per sub-pattern
visited (three in total, one for the sequence node itself) with no
comparison; the comparison against `max_statements` happens only in
`_eval`'s prologue, so the first node evaluated *after* (or during —
`MatchValue`/mapping-key expressions go through `_eval`) the matching
raises `TooManyStatements` once the counter has passed the ceiling. -/
theorem C10_patma_increments_unchecked (cfg : Cfg) (c : Nat) (subject : Value)
    (x y : VName) :
    patma cfg (.as_ none (some x)) subject c = .ok (some [(x, subject)], c + 1) ∧
    (x ≠ y → ∀ a b : Value,
      patma cfg (.sequence [.as_ none (some x), .as_ none (some y)]) (.vTuple [a, b]) c =
        .ok (some [(x, a), (y, b)], c + 3)) ∧
    (c ≥ cfg.maxStatements → evalStep cfg c = .error .tooManyStatements) ∧
    (c < cfg.maxStatements → evalStep cfg c = .ok (c + 1)) := by
  refine ⟨?_, ?_, ?_, ?_⟩
  · simp [patma]
  · intro hxy a b
    have hxy' : (x == y) = false := beq_eq_false_iff_ne.mpr hxy
    have hyx' : (y == x) = false := beq_eq_false_iff_ne.mpr (Ne.symm hxy)
    simp [patma, patmaSequence, patmaPairs, starIdxs, isStarPat, List.enum, namesIntersect,
      bUpdate, bSet, hxy', hyx']
    exact Ne.symm hxy
  · intro h
    simp [evalStep]
    omega
  · intro h
    simp [evalStep]
    omega

/-- Claim C10 (witness): with the default `max_statements = 100000` and the
counter already at the ceiling, matching `(x, y)` against `(1, 2)`
succeeds and pushes the counter to 100003 — no `TooManyStatements` —
and the next `_eval` raises it. -/
theorem C10_witness :
    patma defaultConfig (.sequence [.as_ none (some "x"), .as_ none (some "y")])
      (.vTuple [.vInt 1, .vInt 2]) 100000 =
      .ok (some [("x", .vInt 1), ("y", .vInt 2)], 100003) ∧
    evalStep defaultConfig 100003 = .error .tooManyStatements := by
  constructor
  · exact (C10_patma_increments_unchecked defaultConfig 100000 (.vTuple [.vInt 1, .vInt 2])
      "x" "y").2.1 (by decide) (.vInt 1) (.vInt 2)
  · exact (C10_patma_increments_unchecked defaultConfig 100003 .vNone "x" "y").2.2.1
      (by simp [defaultConfig])

end Draconic
